import Mathlib

/-!
Verification of the MIMIC preprocessing pipeline
(`modules/classes/mimic_pre_processor.py` and `main.py`).

The embedding models the pandas/numpy data flow over exact rationals:
a record table is a list of rows, each row an entity id (`hadm_id`)
plus a list of feature values with the derived target columns appended
last; 3-D tensors are nested lists.  Seeded random permutations
(`DataFrame.sample(frac=1)`, `np.random.shuffle`) are modelled as
explicit permutation parameters, since only the fact that they permute
matters to the properties below.  Python argument binding and attribute
lookup are modelled explicitly for the two call-site claims.
-/

namespace MimicModel

/-! ## Label derivation (`create_target`, `wbc_criterion`, `temp_criterion`) -/

/-- `wbc_criterion` from `mimic_pre_processor.py` line 11:
`(x > 12 or x < 4) and x != 0`. -/
def wbc_criterion (x : ℚ) : Bool :=
  (decide (12 < x) || decide (x < 4)) && decide (x ≠ 0)

/-- `temp_criterion` from `mimic_pre_processor.py` line 15:
`(x > 100.4 or x < 96.8) and x != 0`. -/
def temp_criterion (x : ℚ) : Bool :=
  (decide ((100.4 : ℚ) < x) || decide (x < (96.8 : ℚ))) && decide (x ≠ 0)

/-- The per-row clinical measurements that the SEPSIS branch of
`create_target` reads (lines 87-92). -/
structure PatientRow where
  heart_rate : ℚ
  respiratory_rate : ℚ
  wbcs : ℚ
  temperature_f : ℚ
  infection : ℚ
  deriving DecidableEq

/-- `hr_sepsis` (line 87): `1 if x > 90 else 0`. -/
def hr_sepsis (r : PatientRow) : ℕ := if 90 < r.heart_rate then 1 else 0

/-- `respiratory_rate_sepsis` (line 88): `1 if x > 20 else 0`. -/
def respiratory_rate_sepsis (r : PatientRow) : ℕ :=
  if 20 < r.respiratory_rate then 1 else 0

/-- `sepsis_points` (line 91): the sum of the four criteria, booleans
counting as 1 when they hold. -/
def sepsis_points (r : PatientRow) : ℕ :=
  hr_sepsis r + respiratory_rate_sepsis r +
    (if wbc_criterion r.wbcs then 1 else 0) +
    (if temp_criterion r.temperature_f then 1 else 0)

/-- The derived `SEPSIS` column (line 92):
`int((sepsis_points >= 2) and (infection == 1))`. -/
def sepsis_label (r : PatientRow) : ℕ :=
  if 2 ≤ sepsis_points r ∧ r.infection = 1 then 1 else 0

/-- Spec-side reading of the four binary SEPSIS criteria, as listed in
the claim: heart rate above threshold, respiratory rate above
threshold, abnormal white-cell count, abnormal temperature. -/
def sepsisCriteria (r : PatientRow) : List Bool :=
  [decide (90 < r.heart_rate), decide (20 < r.respiratory_rate),
   wbc_criterion r.wbcs, temp_criterion r.temperature_f]

/-- Spec-side count of criteria that fire. -/
def criteriaFired (r : PatientRow) : ℕ := (sepsisCriteria r).count true

/-! ## Python call binding (`save_data_to_disk` call in `apply_pipeline`) -/

/-- A formal parameter of a Python function: its name and whether it
has a default value. -/
structure PyParam where
  name : String
  hasDefault : Bool

/-- Errors raised by Python while binding a call to a function
signature (the relevant subset of `TypeError`). -/
inductive PyBindError where
  | tooManyPositional : PyBindError
  | multipleValues (param : String) : PyBindError
  | unexpectedKeyword (kw : String) : PyBindError
  | missingRequired (param : String) : PyBindError
  deriving DecidableEq

/-- Python call binding for a signature without `*args`/`**kwargs`:
positional arguments fill the leading parameters, keyword arguments
must name a parameter not already bound, and every parameter without a
default must end up bound, otherwise the call raises `TypeError`
before the function body runs. -/
def pyBind {V : Type} (params : List PyParam) (pos : List V)
    (kw : List (String × V)) : Except PyBindError (List (String × V)) :=
  if params.length < pos.length then
    .error .tooManyPositional
  else
    let posNames := (params.take pos.length).map PyParam.name
    match kw.find? (fun p => decide (p.1 ∈ posNames)) with
    | some p => .error (.multipleValues p.1)
    | none =>
      match kw.find? (fun p => !params.any (fun q => q.name == p.1)) with
      | some p => .error (.unexpectedKeyword p.1)
      | none =>
        match (params.drop pos.length).find?
            (fun q => !q.hasDefault && !kw.any (fun p => p.1 == q.name)) with
        | some q => .error (.missingRequired q.name)
        | none => .ok (posNames.zip pos ++ kw)

/-- The signature of the module-level function `save_data_to_disk`
(`mimic_pre_processor.py` line 18): it declares a leading `self`
parameter although it is not a method, then `whole_data`, `mask`,
`name`, `labels`, `output_folder`, and `n_targets` with default 1. -/
def saveDataToDiskParams : List PyParam :=
  [⟨"self", false⟩, ⟨"whole_data", false⟩, ⟨"mask", false⟩,
   ⟨"name", false⟩, ⟨"labels", false⟩, ⟨"output_folder", false⟩,
   ⟨"n_targets", true⟩]

/-- The persistence call `apply_pipeline` makes at line 310:
`save_data_to_disk(whole_data, mask, name, targets, output_folder,
n_targets=len(targets))` — five positional arguments plus the keyword
`n_targets`. -/
def applyPipelinePersistCall {V : Type}
    (whole_data mask name targets output_folder n_targets : V) :
    Except PyBindError (List (String × V)) :=
  pyBind saveDataToDiskParams [whole_data, mask, name, targets, output_folder]
    [("n_targets", n_targets)]

/-! ## Attribute lookup (`main.py` preprocessing branch) -/

/-- The methods defined on class `MimicPreProcessor`
(`mimic_pre_processor.py` lines 59-312). -/
def mimicPreProcessorMethods : List String :=
  ["__init__", "create_target", "reduce_features", "balance_data_set",
   "split_and_normalize_data", "pad_data", "apply_pipeline"]

/-- The instance attributes set by `MimicPreProcessor.__init__`
(lines 64-67). -/
def mimicPreProcessorInstanceAttrs : List String :=
  ["parsed_mimic", "id_col", "random_seed"]

/-- Python attribute lookup on a `MimicPreProcessor` instance: an
attribute resolves if it is an instance attribute or a class method,
otherwise `AttributeError` is raised. -/
def getattrPreProcessor (attr : String) : Except String String :=
  if mimicPreProcessorInstanceAttrs.contains attr
      || mimicPreProcessorMethods.contains attr then
    .ok attr
  else
    .error ("AttributeError: " ++ attr)

/-- The preprocessing branch of `main` (`main.py` lines 101-114): it
looks up `pre_process_and_save_files` on the preprocessor instance and
would call it once for the full target list and once per single
target; on success it would return the list of target configurations
processed. -/
def mainPreprocessBranch (targets : List String) :
    Except String (List (List String)) := do
  let m ← getattrPreProcessor "pre_process_and_save_files"
  let _ := m
  pure (targets :: targets.map (fun t => [t]))

/-! ## Tensors and the slicing in `save_data_to_disk` (lines 38-43) -/

/-- The cell of a 3-D tensor at entity index `e`, time-step index `s`
(as a row of feature values), when it exists. -/
def cell3 {α : Type} (t : List (List (List α))) (e s : ℕ) : Option (List α) :=
  (t[e]?).bind fun ent => ent[s]?

/-- A 3-D tensor has shape `[E, T, F]`: `E` entities, each with `T`
time-step rows of `F` feature values. -/
def HasShape {α : Type} (t : List (List (List α))) (E T F : ℕ) : Prop :=
  t.length = E ∧ ∀ ent ∈ t, ent.length = T ∧ ∀ row ∈ ent, row.length = F

instance {α : Type} (t : List (List (List α))) (E T F : ℕ) :
    Decidable (HasShape t E T F) := by
  unfold HasShape; infer_instance

/-- `input_data = whole_data[:, :-1, :-n_targets]` (line 38): drop the
last time step and the last `n` (target) feature columns.  For `1 ≤ n`
the Python slice `[:-n]` is `take (len - n)`. -/
def input_data {α : Type} (n : ℕ) (whole_data : List (List (List α))) :
    List (List (List α)) :=
  whole_data.map fun ent =>
    (ent.take (ent.length - 1)).map fun row => row.take (row.length - n)

/-- `targets = whole_data[:, 1:, -n_targets:]` (line 39): drop the
first time step and keep only the last `n` (target) feature columns.
For `1 ≤ n` the Python slice `[-n:]` is `drop (len - n)`.  The
subsequent `reshape` at line 40 is the identity on a tensor that
already has this shape and is not modelled separately. -/
def target_data {α : Type} (n : ℕ) (whole_data : List (List (List α))) :
    List (List (List α)) :=
  whole_data.map fun ent =>
    (ent.drop 1).map fun row => row.drop (row.length - n)

/-! ## Padding mask construction in `pad_data` (lines 263-275) -/

/-- `~whole_data.any(axis=2)` (line 269): a time-step row is flagged
iff none of its entries is truthy, i.e. all entries are exactly 0. -/
def rowIsPad (row : List ℚ) : Bool :=
  !row.any fun x => decide (x ≠ 0)

/-- `whole_data[mask] = np.nan` (line 270): every cell of a flagged
row becomes NaN (modelled as `none`); other cells keep their value. -/
def set_pad_rows_to_nan (wd : List (List (List ℚ))) :
    List (List (List (Option ℚ))) :=
  wd.map fun ent => ent.map fun row =>
    if rowIsPad row then row.map fun _ => (none : Option ℚ)
    else row.map some

/-- `mask = np.isnan(whole_data)` (line 272): the per-cell boolean
mask is true exactly at NaN cells. -/
def nan_mask (w : List (List (List (Option ℚ)))) : List (List (List Bool)) :=
  w.map fun ent => ent.map fun row => row.map Option.isNone

/-- `whole_data[mask] = pad_value` (line 273): NaN cells are restored
to the pad value. -/
def restore_pad (pad_value : ℚ) (w : List (List (List (Option ℚ)))) :
    List (List (List ℚ)) :=
  w.map fun ent => ent.map fun row => row.map fun c => c.getD pad_value

/-- The boolean mask returned by `pad_data` for an already padded and
reshaped tensor (lines 269-272). -/
def pad_data_mask (wd : List (List (List ℚ))) : List (List (List Bool)) :=
  nan_mask (set_pad_rows_to_nan wd)

/-- The data tensor returned by `pad_data` (lines 269-273). -/
def pad_data_values (pad_value : ℚ) (wd : List (List (List ℚ))) :
    List (List (List ℚ)) :=
  restore_pad pad_value (set_pad_rows_to_nan wd)

/-! ## Entity split in `split_and_normalize_data` (lines 221-227) -/

/-- A row of the record table: the entity identifier (`hadm_id`
column) plus the remaining numeric columns, with the derived target
columns appended last. -/
structure TRow where
  id : ℕ
  feats : List ℚ
  deriving DecidableEq

/-- `DataFrame.sample(frac=1, random_state=seed)` (line 222) reorders
the rows by a permutation of positions that the seeded generator
derives from the seed and the row count alone; the permutation is
passed explicitly here. -/
def applyPerm {α : Type} (σ : List ℕ) (l : List α) : List α :=
  σ.filterMap fun i => l[i]?

/-- `Series.unique()` (line 222): the distinct values in order of
first occurrence. -/
def pdUnique : List ℕ → List ℕ
  | [] => []
  | x :: xs => x :: (pdUnique xs).filter fun y => decide (y ≠ x)

/-- `train_bound = int(train_percentage * len(keys))` (line 223);
`int` truncates, which is the floor for the nonnegative fractions
used here. -/
def train_bound (p : ℚ) (k : ℕ) : ℕ := (p * (k : ℚ)).floor.toNat

/-- Lines 222-225: the shuffled unique keys, split at the train
bound into `train_keys` and `test_keys`. -/
def split_keys (σ : List ℕ) (p : ℚ) (df : List TRow) : List ℕ × List ℕ :=
  let keys := pdUnique (applyPerm σ (df.map TRow.id))
  let b := train_bound p keys.length
  (keys.take b, keys.drop b)

/-- Lines 226-227: `train_data`/`test_data` are the rows whose id is
in `train_keys`/`test_keys` (`isin`), in original row order. -/
def split_data (σ : List ℕ) (p : ℚ) (df : List TRow) : List TRow × List TRow :=
  (df.filter fun r => (split_keys σ p df).1.contains r.id,
   df.filter fun r => (split_keys σ p df).2.contains r.id)

/-! ## Standardization in `reduce_features` (lines 119-124)

The stage is column-wise: `means`/`stds` are per-column statistics of
the training data, and both train and test are standardized with them.
`Rat.sqrt` stands in for the floating-point square root; it vanishes
on exactly the same nonnegative inputs as the real square root, which
is all the zero-variance claims below depend on.  The PCA fit that
follows (lines 126-129) consumes the standardized data and is outside
the claim. -/

/-- `train_data.mean(axis=0)` for one column (line 119). -/
def colMean (xs : List ℚ) : ℚ := xs.sum / (xs.length : ℚ)

/-- The sample variance with `ddof=1`, the square of the pandas
`std(axis=0)` of one column (line 120). -/
def colVar (xs : List ℚ) : ℚ :=
  (xs.map fun x => (x - colMean xs) ^ 2).sum / ((xs.length : ℚ) - 1)

/-- `train_data.std(axis=0)` for one column (line 120). -/
def colStd (xs : List ℚ) : ℚ := Rat.sqrt (colVar xs)

/-- `stds[stds == 0] = 1` (line 121): the divisor actually used. -/
def adjStd (xs : List ℚ) : ℚ := if colStd xs = 0 then 1 else colStd xs

/-- `(col - means) / stds` (lines 123-124): standardize a column
(train or test) with the training statistics of `train`. -/
def standardizeCol (train col : List ℚ) : List ℚ :=
  col.map fun x => (x - colMean train) / adjStd train

/-- Line 123: every training column standardized with its own
statistics. -/
def standardize_train (trainCols : List (List ℚ)) : List (List ℚ) :=
  trainCols.map fun c => standardizeCol c c

/-- Line 124: every test column standardized with the statistics of
the corresponding training column. -/
def standardize_test (trainCols testCols : List (List ℚ)) : List (List ℚ) :=
  (trainCols.zip testCols).map fun p => standardizeCol p.1 p.2

/-! ## Class balancing in `balance_data_set` (lines 137-198)

`np.random.shuffle` occurrences are modelled as explicit reordering
functions; the pandas `groupby(id).agg(sum)`/`first()` pipeline is
modelled row-wise over exact rationals (the pipeline guarantees no
NaN, so `first()` is the first row of each group and sums are plain
column sums).  `groupby` sorts the group keys ascending. -/

/-- The rows of one entity group, in original row order. -/
def groupRows (rows : List TRow) (i : ℕ) : List TRow :=
  rows.filter fun r => decide (r.id = i)

/-- The index of a pandas `groupby(id_col)` result: the distinct ids,
sorted ascending. -/
def sortedUniqueIds (rows : List TRow) : List ℕ :=
  List.insertionSort (· ≤ ·) (pdUnique (rows.map TRow.id))

/-- Column-wise sum of a group of feature rows of width `F`
(`patients_grouped.agg('sum')`, line 157). -/
def colSums (F : ℕ) (ls : List (List ℚ)) : List ℚ :=
  ls.foldr (fun r acc => List.zipWith (· + ·) r acc) (List.replicate F 0)

/-- `n_pos_per_patient` for one patient (lines 157-158): the
per-target column sums of the patient group minus the first row of
the group, restricted to the last `n` (target) columns. -/
def n_pos_diff (F n : ℕ) (rows : List TRow) (i : ℕ) : List ℚ :=
  let grp := groupRows rows i
  let sums := (colSums F (grp.map TRow.feats)).drop (F - n)
  let fst := ((grp.head?.map TRow.feats).getD (List.replicate F 0)).drop (F - n)
  List.zipWith (· - ·) sums fst

/-- `(n_pos_per_patient != 0).sum(axis=0)` for target column `j`
(lines 161/163): the number of patients whose target-`j` difference is
non-zero, i.e. the ever-positive entity count of target `j`. -/
def everPosCount (F n : ℕ) (rows : List TRow) (j : ℕ) : ℕ :=
  ((sortedUniqueIds rows).filter fun i =>
    decide ((n_pos_diff F n rows i).getD j 0 ≠ 0)).length

/-- `numpy.argmax` over `f 0, ..., f (n-1)`: the first index attaining
the maximum. -/
def argmaxIdx (f : ℕ → ℕ) (n : ℕ) : ℕ :=
  (List.range n).foldl (fun best j => if f best < f j then j else best) 0

/-- `numpy.argmin` over `f 0, ..., f (n-1)`: the first index attaining
the minimum. -/
def argminIdx (f : ℕ → ℕ) (n : ℕ) : ℕ :=
  (List.range n).foldl (fun best j => if f j < f best then j else best) 0

/-- `n_rows` (lines 160-163): the reference target column index. -/
def ref_target (F n : ℕ) (undersample : Bool) (rows : List TRow) : ℕ :=
  if undersample then argmaxIdx (everPosCount F n rows) n
  else argminIdx (everPosCount F n rows) n

/-- `pos_ids` (line 165): patients positive for the reference target,
in groupby (sorted id) order. -/
def pos_ids (F n nr : ℕ) (rows : List TRow) : List ℕ :=
  (sortedUniqueIds rows).filter fun i =>
    decide ((n_pos_diff F n rows i).getD nr 0 ≠ 0)

/-- `neg_pos_ids` (lines 166-167): patients negative for the
reference target but with non-zero total difference across all
targets. -/
def neg_pos_ids (F n nr : ℕ) (rows : List TRow) : List ℕ :=
  ((sortedUniqueIds rows).filter fun i =>
    decide ((n_pos_diff F n rows i).getD nr 0 = 0)).filter fun i =>
      decide ((n_pos_diff F n rows i).sum ≠ 0)

/-- `neg_ids` before concatenation (line 168): patients negative for
the reference target and with zero total difference. -/
def neg_only_ids (F n nr : ℕ) (rows : List TRow) : List ℕ :=
  ((sortedUniqueIds rows).filter fun i =>
    decide ((n_pos_diff F n rows i).getD nr 0 = 0)).filter fun i =>
      decide ((n_pos_diff F n rows i).sum = 0)

/-- The four `np.random.shuffle` occurrences (lines 170-172 and 187),
as explicit reordering functions of the global seeded generator. -/
structure Shuffles where
  shufPos : List ℕ → List ℕ
  shufNegPos : List ℕ → List ℕ
  shufNeg : List ℕ → List ℕ
  shufTotal : List ℕ → List ℕ

/-- Lines 165-183: build the shuffled positive pool and the negative
pool (other-target-positive ids concatenated before all-negative ids,
line 175), then let the smaller be the minority class (ties make the
negative pool the minority, lines 177-182). -/
def balance_pools (F n : ℕ) (sh : Shuffles) (undersample : Bool)
    (rows : List TRow) : List ℕ × List ℕ :=
  let nr := ref_target F n undersample rows
  let pos := sh.shufPos (pos_ids F n nr rows)
  let neg := sh.shufNegPos (neg_pos_ids F n nr rows) ++
    sh.shufNeg (neg_only_ids F n nr rows)
  if pos.length < neg.length then (pos, neg) else (neg, pos)

/-- `int(minority_length * imbalance)` (line 186); Python `int`
truncates, which is the floor for the nonnegative products used. -/
def pyTruncMul (m : ℕ) (imb : ℚ) : ℕ := ((m : ℚ) * imb).floor.toNat

/-- `balance_data_set` (lines 137-198).  Undersampling (lines
185-190): keep `minority[:minority_length]` plus
`majority[:int(minority_length * imbalance)]`, shuffle, and filter the
row table by membership (`isin`).  Oversampling (lines 191-197):
append the minority rows `majority_size // minority_size - 1`
additional times (Python `//`; the source raises `ZeroDivisionError`
when the minority pool is empty, so theorems assume it is not). -/
def balance_data_set (F n : ℕ) (sh : Shuffles) (rows : List TRow)
    (undersample : Bool) (imbalance : ℚ) : List TRow :=
  let mm := balance_pools F n sh undersample rows
  let minority := mm.1
  let majority := mm.2
  let m := minority.length
  if undersample then
    let total := sh.shufTotal (minority.take m ++ majority.take (pyTruncMul m imbalance))
    rows.filter fun r => total.contains r.id
  else
    let d := majority.length / m
    let minority_data := rows.filter fun r => minority.contains r.id
    (List.range (d - 1)).foldl (fun acc _ => acc ++ minority_data) rows

/-- The oversampling duplication factor `majority_size // minority_size`
(line 192). -/
def over_factor (F n : ℕ) (sh : Shuffles) (rows : List TRow) : ℕ :=
  (balance_pools F n sh false rows).2.length /
    (balance_pools F n sh false rows).1.length

/-- The identity reordering: a degenerate but admissible realization
of the seeded shuffles, used to instantiate concrete examples. -/
def idShuffles : Shuffles :=
  ⟨fun l => l, fun l => l, fun l => l, fun l => l⟩

/-- Modelled from the words of claim C5: the kept entity set of
undersampling mode — the minority pool plus the first
`⌊imbalance × minority_size⌋` entities of the shuffled majority
pool. -/
def undersample_kept (F n : ℕ) (sh : Shuffles) (imbalance : ℚ)
    (rows : List TRow) : Finset ℕ :=
  (balance_pools F n sh true rows).1.toFinset ∪
    ((balance_pools F n sh true rows).2.take
      (pyTruncMul (balance_pools F n sh true rows).1.length imbalance)).toFinset

/-- Modelled from the words of claim C5: undersampling returns exactly
the input rows whose entity is in the kept set. -/
def undersample_spec (F n : ℕ) (sh : Shuffles) (imbalance : ℚ)
    (rows : List TRow) : List TRow :=
  rows.filter fun r => decide (r.id ∈ undersample_kept F n sh imbalance rows)

/-! ## Theorems: C9, C1, C10 -/

private lemma sepsis_points_eq_criteriaFired (r : PatientRow) :
    sepsis_points r = criteriaFired r := by
  unfold sepsis_points criteriaFired sepsisCriteria hr_sepsis respiratory_rate_sepsis
  by_cases h1 : 90 < r.heart_rate <;>
    by_cases h2 : 20 < r.respiratory_rate <;>
      cases h3 : wbc_criterion r.wbcs <;>
        cases h4 : temp_criterion r.temperature_f <;>
          simp [h1, h2, h3, h4, List.count_cons]

/-- C9: for every input row, the derived SEPSIS label of
`create_target` equals 1 iff at least two of the four binary criteria
fire and the infection flag equals 1, and equals 0 otherwise. -/
theorem sepsis_label_iff_two_criteria_and_infection (r : PatientRow) :
    (sepsis_label r = 1 ↔ 2 ≤ criteriaFired r ∧ r.infection = 1) ∧
    (sepsis_label r = 1 ∨ sepsis_label r = 0) := by
  unfold sepsis_label
  rw [sepsis_points_eq_criteriaFired]
  by_cases h : 2 ≤ criteriaFired r ∧ r.infection = 1 <;> simp [h]

/-- C1: the call `save_data_to_disk(whole_data, mask, name, targets,
output_folder, n_targets=len(targets))` in `apply_pipeline` fails
argument binding for every choice of argument values: the five
positional arguments bind to `self` through `labels`, the keyword
binds `n_targets`, and the required parameter `output_folder` is never
bound, so the call raises `TypeError` before the function body (and in
particular before any write to disk) can run. -/
theorem apply_pipeline_persist_call_raises (V : Type)
    (whole_data mask name targets output_folder n_targets : V) :
    applyPipelinePersistCall whole_data mask name targets output_folder
      n_targets = .error (.missingRequired "output_folder") := rfl

/-- C10: for every target configuration, the preprocessing branch of
`main` fails with `AttributeError`, because `MimicPreProcessor` defines
no method `pre_process_and_save_files`; no preprocessing is performed
through `main`. -/
theorem main_preprocess_branch_attribute_error (targets : List String) :
    mainPreprocessBranch targets =
      .error "AttributeError: pre_process_and_save_files" := rfl

/-! ## Theorems: C4 (shift invariant of the persisted slices) -/

private lemma input_data_shape {α : Type} {t : List (List (List α))} {E T F : ℕ}
    (n : ℕ) (h : HasShape t E T F) :
    HasShape (input_data n t) E (T - 1) (F - n) := by
  obtain ⟨hlen, hrows⟩ := h
  refine ⟨by simpa [input_data] using hlen, ?_⟩
  intro ent2 hent2
  rw [input_data, List.mem_map] at hent2
  obtain ⟨ent, hent, rfl⟩ := hent2
  obtain ⟨hT, hF⟩ := hrows ent hent
  refine ⟨?_, ?_⟩
  · rw [List.length_map, List.length_take, hT]
    exact Nat.min_eq_left (Nat.sub_le _ _)
  · intro row2 hrow2
    rw [List.mem_map] at hrow2
    obtain ⟨row, hrow, rfl⟩ := hrow2
    rw [List.length_take, hF row (List.mem_of_mem_take hrow)]
    exact Nat.min_eq_left (Nat.sub_le _ _)

private lemma target_data_shape {α : Type} {t : List (List (List α))} {E T F : ℕ}
    {n : ℕ} (h : HasShape t E T F) (hnF : n ≤ F) :
    HasShape (target_data n t) E (T - 1) n := by
  obtain ⟨hlen, hrows⟩ := h
  refine ⟨by simpa [target_data] using hlen, ?_⟩
  intro ent2 hent2
  rw [target_data, List.mem_map] at hent2
  obtain ⟨ent, hent, rfl⟩ := hent2
  obtain ⟨hT, hF⟩ := hrows ent hent
  refine ⟨?_, ?_⟩
  · rw [List.length_map, List.length_drop, hT]
  · intro row2 hrow2
    rw [List.mem_map] at hrow2
    obtain ⟨row, hrow, rfl⟩ := hrow2
    rw [List.length_drop, hF row (List.mem_of_mem_drop hrow)]
    exact Nat.sub_sub_self hnF

private lemma cell3_target_data {α : Type} {t : List (List (List α))}
    {E T F : ℕ} (n : ℕ) (h : HasShape t E T F) (e s : ℕ) :
    cell3 (target_data n t) e s =
      (cell3 t e (s + 1)).map fun row => row.drop (F - n) := by
  unfold cell3 target_data
  rw [List.getElem?_map]
  cases ht : t[e]? with
  | none => simp
  | some ent =>
    have hmem : ent ∈ t := List.getElem?_mem ht
    simp only [Option.map_some', Option.some_bind]
    rw [List.getElem?_map, List.getElem?_drop]
    rw [Nat.add_comm 1 s]
    cases hr : ent[s + 1]? with
    | none => simp
    | some row =>
      have hF : row.length = F := (h.2 ent hmem).2 row (List.getElem?_mem hr)
      simp [hF]

/-- C4: for every `[E, T, F]`-shaped padded tensor with `n ≥ 1` target
columns and its mask, `save_data_to_disk` derives the input tensor as
`tensor[:, 0:T-1, 0:F-n]` and the target tensor as
`tensor[:, 1:T, F-n:F]`, slicing the mask with the same functions; the
target cell at step `t` equals the pre-shift tensor target columns at
step `t+1`, the final step is dropped (both slices have `T-1` steps),
and the sliced shapes are `[E, T-1, F-n]` and `[E, T-1, n]`. -/
theorem save_data_to_disk_slices (E T F n : ℕ)
    (whole_data : List (List (List ℚ))) (mask : List (List (List Bool)))
    (hd : HasShape whole_data E T F) (hm : HasShape mask E T F)
    (_hn : 1 ≤ n) (hnF : n ≤ F) :
    (∀ e s, cell3 (target_data n whole_data) e s =
        (cell3 whole_data e (s + 1)).map fun row => row.drop (F - n))
    ∧ (∀ e s, cell3 (target_data n mask) e s =
        (cell3 mask e (s + 1)).map fun row => row.drop (F - n))
    ∧ HasShape (input_data n whole_data) E (T - 1) (F - n)
    ∧ HasShape (target_data n whole_data) E (T - 1) n
    ∧ HasShape (input_data n mask) E (T - 1) (F - n)
    ∧ HasShape (target_data n mask) E (T - 1) n := by
  exact ⟨fun e s => cell3_target_data n hd e s,
         fun e s => cell3_target_data n hm e s,
         input_data_shape n hd, target_data_shape hd hnF,
         input_data_shape n hm, target_data_shape hm hnF⟩

/-- Witness for C4 at the concrete tensor `[[[1,2],[3,4]]]` with mask
`[[[false,false],[true,true]]]`, shape `[1,2,2]`, one target column. -/
theorem save_data_to_disk_slices_witness :
    HasShape [[[(1 : ℚ), 2], [3, 4]]] 1 2 2 ∧
    ((∀ e s, cell3 (target_data 1 [[[(1 : ℚ), 2], [3, 4]]]) e s =
        (cell3 [[[(1 : ℚ), 2], [3, 4]]] e (s + 1)).map fun row => row.drop (2 - 1))
    ∧ (∀ e s, cell3 (target_data 1 [[[false, false], [true, true]]]) e s =
        (cell3 [[[false, false], [true, true]]] e (s + 1)).map fun row => row.drop (2 - 1))
    ∧ HasShape (input_data 1 [[[(1 : ℚ), 2], [3, 4]]]) 1 (2 - 1) (2 - 1)
    ∧ HasShape (target_data 1 [[[(1 : ℚ), 2], [3, 4]]]) 1 (2 - 1) 1
    ∧ HasShape (input_data 1 [[[false, false], [true, true]]]) 1 (2 - 1) (2 - 1)
    ∧ HasShape (target_data 1 [[[false, false], [true, true]]]) 1 (2 - 1) 1) :=
  ⟨by decide,
   save_data_to_disk_slices 1 2 2 1 [[[(1 : ℚ), 2], [3, 4]]]
     [[[false, false], [true, true]]] (by decide) (by decide) (by decide) (by decide)⟩

/-! ## Theorems: C8 (padding mask is the broadcast all-zero row flag) -/

private lemma rowIsPad_eq_all (row : List ℚ) :
    rowIsPad row = row.all fun x => decide (x = 0) := by
  unfold rowIsPad
  induction row with
  | nil => rfl
  | cons x xs ih =>
    simp only [ne_eq, decide_not] at ih
    simp [List.any_cons, List.all_cons, Bool.not_or, decide_not, ih]

private lemma pad_data_mask_shape {wd : List (List (List ℚ))} {E T F : ℕ}
    (h : HasShape wd E T F) : HasShape (pad_data_mask wd) E T F := by
  obtain ⟨hlen, hrows⟩ := h
  unfold pad_data_mask nan_mask set_pad_rows_to_nan
  rw [List.map_map]
  refine ⟨by simpa using hlen, ?_⟩
  intro ent2 hent2
  rw [List.mem_map] at hent2
  obtain ⟨ent, hent, rfl⟩ := hent2
  obtain ⟨hT, hF⟩ := hrows ent hent
  refine ⟨by simpa using hT, ?_⟩
  intro row2 hrow2
  simp only [Function.comp_apply, List.map_map, List.mem_map] at hrow2
  obtain ⟨row, hrow, rfl⟩ := hrow2
  by_cases hp : rowIsPad row <;> simp [hp, hF row hrow]

/-- C8: for every `[E, T, F]`-shaped tensor padded with pad value 0,
`pad_data` flags a time-step row as padding iff all of its feature
values are exactly 0, the returned per-cell mask is this row-wise flag
broadcast across all `F` feature positions, the mask has the same
shape as the tensor, and in particular a genuine all-zero observation
row is flagged as padding. -/
theorem pad_data_mask_is_broadcast_all_zero (E T F : ℕ)
    (wd : List (List (List ℚ))) (h : HasShape wd E T F) :
    (∀ e s row, cell3 wd e s = some row →
        cell3 (pad_data_mask wd) e s =
          some (List.replicate F (row.all fun x => decide (x = 0))))
    ∧ HasShape (pad_data_mask wd) E T F
    ∧ (∀ e s row, cell3 wd e s = some row → (∀ x ∈ row, x = 0) →
        cell3 (pad_data_mask wd) e s = some (List.replicate F true)) := by
  have key : ∀ e s row, cell3 wd e s = some row →
      cell3 (pad_data_mask wd) e s =
        some (List.replicate F (row.all fun x => decide (x = 0))) := by
    intro e s row hcell
    unfold cell3 at hcell ⊢
    unfold pad_data_mask nan_mask set_pad_rows_to_nan
    rw [List.map_map, List.getElem?_map]
    cases ht : wd[e]? with
    | none => rw [ht] at hcell; simp at hcell
    | some ent =>
      rw [ht] at hcell
      simp only [Option.some_bind] at hcell
      have hmem : ent ∈ wd := List.getElem?_mem ht
      have hF : row.length = F := (h.2 ent hmem).2 row (List.getElem?_mem hcell)
      simp only [Option.map_some', Option.some_bind, Function.comp_apply,
        List.map_map, List.getElem?_map, hcell]
      rw [← rowIsPad_eq_all]
      have hcomp : (Option.isNone ∘ (some : ℚ → Option ℚ)) = fun _ => false := rfl
      by_cases hp : rowIsPad row <;> simp [hp, hcomp, hF]
  refine ⟨key, pad_data_mask_shape h, ?_⟩
  intro e s row hcell hzero
  rw [key e s row hcell]
  have : (row.all fun x => decide (x = 0)) = true := by
    simp only [List.all_eq_true, decide_eq_true_eq]
    exact hzero
  rw [this]

/-- Witness for C8 at the concrete tensor with one real row and one
all-zero (padded) row. -/
theorem pad_data_mask_is_broadcast_all_zero_witness :
    HasShape [[[(1 : ℚ), 0], [0, 0]]] 1 2 2 ∧
    ((∀ e s row, cell3 [[[(1 : ℚ), 0], [0, 0]]] e s = some row →
        cell3 (pad_data_mask [[[(1 : ℚ), 0], [0, 0]]]) e s =
          some (List.replicate 2 (row.all fun x => decide (x = 0))))
    ∧ HasShape (pad_data_mask [[[(1 : ℚ), 0], [0, 0]]]) 1 2 2
    ∧ (∀ e s row, cell3 [[[(1 : ℚ), 0], [0, 0]]] e s = some row →
        (∀ x ∈ row, x = 0) →
        cell3 (pad_data_mask [[[(1 : ℚ), 0], [0, 0]]]) e s =
          some (List.replicate 2 true))) :=
  ⟨by decide, pad_data_mask_is_broadcast_all_zero 1 2 2 _ (by decide)⟩

/-! ## Theorems: C3 (entity partition) and C2 (row-order dependence) -/

private lemma mem_pdUnique {x : ℕ} {l : List ℕ} : x ∈ pdUnique l ↔ x ∈ l := by
  induction l with
  | nil => simp [pdUnique]
  | cons a as ih =>
    by_cases hxa : x = a <;> simp [pdUnique, List.mem_filter, ih, hxa]

private lemma pdUnique_nodup (l : List ℕ) : (pdUnique l).Nodup := by
  induction l with
  | nil => simp [pdUnique]
  | cons a as ih =>
    rw [pdUnique, List.nodup_cons]
    exact ⟨by simp [List.mem_filter], ih.filter _⟩

private lemma mem_applyPerm {α : Type} {σ : List ℕ} {l : List α}
    (hσ : σ.Perm (List.range l.length)) {x : α} :
    x ∈ applyPerm σ l ↔ x ∈ l := by
  unfold applyPerm
  rw [List.mem_filterMap]
  constructor
  · rintro ⟨i, _, hget⟩
    exact List.getElem?_mem hget
  · intro hx
    obtain ⟨n, hn⟩ := List.mem_iff_getElem?.mp hx
    obtain ⟨hlt, -⟩ := List.getElem?_eq_some_iff.mp hn
    exact ⟨n, hσ.mem_iff.mpr (List.mem_range.mpr hlt), hn⟩

/-- C3: for every input table, seeded permutation and train fraction,
the train and test key lists of `split_and_normalize_data` (lines
221-227) are disjoint, their union is exactly the set of entity ids
present in the input, each half of the row split holds exactly the
rows whose entity id is in the corresponding key list, and every input
row lands on exactly one side. -/
theorem split_partitions_entities (σ : List ℕ) (p : ℚ) (df : List TRow)
    (hσ : σ.Perm (List.range df.length)) :
    (∀ k, ¬(k ∈ (split_keys σ p df).1 ∧ k ∈ (split_keys σ p df).2))
    ∧ (∀ k, (k ∈ (split_keys σ p df).1 ∨ k ∈ (split_keys σ p df).2) ↔
        k ∈ df.map TRow.id)
    ∧ (∀ r, r ∈ (split_data σ p df).1 ↔ r ∈ df ∧ r.id ∈ (split_keys σ p df).1)
    ∧ (∀ r, r ∈ (split_data σ p df).2 ↔ r ∈ df ∧ r.id ∈ (split_keys σ p df).2)
    ∧ (∀ r ∈ df,
        (r ∈ (split_data σ p df).1 ∧ r ∉ (split_data σ p df).2)
        ∨ (r ∈ (split_data σ p df).2 ∧ r ∉ (split_data σ p df).1)) := by
  have hσ2 : σ.Perm (List.range (df.map TRow.id).length) := by
    simpa using hσ
  have hkeysmem : ∀ k, k ∈ pdUnique (applyPerm σ (df.map TRow.id)) ↔
      k ∈ df.map TRow.id :=
    fun k => mem_pdUnique.trans (mem_applyPerm hσ2)
  have hnodup : (pdUnique (applyPerm σ (df.map TRow.id))).Nodup :=
    pdUnique_nodup _
  have hdisj : ∀ k, ¬(k ∈ (split_keys σ p df).1 ∧ k ∈ (split_keys σ p df).2) := by
    intro k ⟨h1, h2⟩
    exact List.disjoint_take_drop hnodup le_rfl h1 h2
  have hunion : ∀ k, (k ∈ (split_keys σ p df).1 ∨ k ∈ (split_keys σ p df).2) ↔
      k ∈ df.map TRow.id := by
    intro k
    rw [← hkeysmem k]
    conv_rhs =>
      rw [← List.take_append_drop
        (train_bound p (pdUnique (applyPerm σ (df.map TRow.id))).length)
        (pdUnique (applyPerm σ (df.map TRow.id)))]
    rw [List.mem_append]
    rfl
  have htr : ∀ r, r ∈ (split_data σ p df).1 ↔
      r ∈ df ∧ r.id ∈ (split_keys σ p df).1 := by
    intro r
    simp [split_data, List.mem_filter]
  have hte : ∀ r, r ∈ (split_data σ p df).2 ↔
      r ∈ df ∧ r.id ∈ (split_keys σ p df).2 := by
    intro r
    simp [split_data, List.mem_filter]
  refine ⟨hdisj, hunion, htr, hte, ?_⟩
  intro r hr
  have hid : r.id ∈ df.map TRow.id := List.mem_map_of_mem TRow.id hr
  rcases (hunion r.id).mpr hid with h1 | h2
  · exact Or.inl ⟨(htr r).mpr ⟨hr, h1⟩,
      fun hc => hdisj r.id ⟨h1, ((hte r).mp hc).2⟩⟩
  · exact Or.inr ⟨(hte r).mpr ⟨hr, h2⟩,
      fun hc => hdisj r.id ⟨((htr r).mp hc).2, h2⟩⟩

/-- Witness for C3: two single-row entities, seed permutation `[1,0]`,
train fraction `1/2`. -/
theorem split_partitions_entities_witness :
    ([1, 0] : List ℕ).Perm
      (List.range ([⟨1, []⟩, ⟨2, []⟩] : List TRow).length)
    ∧ ((∀ k, ¬(k ∈ (split_keys [1, 0] (1/2) [⟨1, []⟩, ⟨2, []⟩]).1 ∧
          k ∈ (split_keys [1, 0] (1/2) [⟨1, []⟩, ⟨2, []⟩]).2))
    ∧ (∀ k, (k ∈ (split_keys [1, 0] (1/2) [⟨1, []⟩, ⟨2, []⟩]).1 ∨
          k ∈ (split_keys [1, 0] (1/2) [⟨1, []⟩, ⟨2, []⟩]).2) ↔
        k ∈ ([⟨1, []⟩, ⟨2, []⟩] : List TRow).map TRow.id)
    ∧ (∀ r, r ∈ (split_data [1, 0] (1/2) [⟨1, []⟩, ⟨2, []⟩]).1 ↔
        r ∈ ([⟨1, []⟩, ⟨2, []⟩] : List TRow) ∧
          r.id ∈ (split_keys [1, 0] (1/2) [⟨1, []⟩, ⟨2, []⟩]).1)
    ∧ (∀ r, r ∈ (split_data [1, 0] (1/2) [⟨1, []⟩, ⟨2, []⟩]).2 ↔
        r ∈ ([⟨1, []⟩, ⟨2, []⟩] : List TRow) ∧
          r.id ∈ (split_keys [1, 0] (1/2) [⟨1, []⟩, ⟨2, []⟩]).2)
    ∧ (∀ r ∈ ([⟨1, []⟩, ⟨2, []⟩] : List TRow),
        (r ∈ (split_data [1, 0] (1/2) [⟨1, []⟩, ⟨2, []⟩]).1 ∧
          r ∉ (split_data [1, 0] (1/2) [⟨1, []⟩, ⟨2, []⟩]).2)
        ∨ (r ∈ (split_data [1, 0] (1/2) [⟨1, []⟩, ⟨2, []⟩]).2 ∧
          r ∉ (split_data [1, 0] (1/2) [⟨1, []⟩, ⟨2, []⟩]).1))) :=
  ⟨by decide,
   split_partitions_entities [1, 0] (1/2) [⟨1, []⟩, ⟨2, []⟩] (by decide)⟩

private lemma split_keys_eval (σ : List ℕ) (p : ℚ) (df : List TRow)
    (ks : List ℕ) (hk : pdUnique (applyPerm σ (df.map TRow.id)) = ks)
    (b : ℕ) (hb : train_bound p ks.length = b) :
    split_keys σ p df = (ks.take b, ks.drop b) := by
  simp only [split_keys]
  rw [hk, hb]

/-- Counterexample to C2: the tables `[(id 1), (id 2)]` and
`[(id 2), (id 1)]` hold the same rows in different orders, yet for
train fraction `1/2` the produced train key list differs between the
two tables under both permutations of two row positions — hence under
the seeded permutation any seed yields.  The split depends on the row
order of the input, not only on the seed and the entity-id set. -/
theorem split_row_order_dependence_counterexample :
    ([⟨1, []⟩, ⟨2, []⟩] : List TRow).Perm [⟨2, []⟩, ⟨1, []⟩]
    ∧ (split_keys [0, 1] (1/2) [⟨1, []⟩, ⟨2, []⟩]).1 ≠
        (split_keys [0, 1] (1/2) [⟨2, []⟩, ⟨1, []⟩]).1
    ∧ (split_keys [1, 0] (1/2) [⟨1, []⟩, ⟨2, []⟩]).1 ≠
        (split_keys [1, 0] (1/2) [⟨2, []⟩, ⟨1, []⟩]).1 := by
  have hb : train_bound (1/2) 2 = 1 := by
    have h : ((1 : ℚ)/2 * ((2 : ℕ) : ℚ)) = 1 := by norm_num
    rw [train_bound, h]; rfl
  have e1 := split_keys_eval [0, 1] (1/2) [⟨1, []⟩, ⟨2, []⟩] [1, 2] (by decide) 1 hb
  have e2 := split_keys_eval [0, 1] (1/2) [⟨2, []⟩, ⟨1, []⟩] [2, 1] (by decide) 1 hb
  have e3 := split_keys_eval [1, 0] (1/2) [⟨1, []⟩, ⟨2, []⟩] [2, 1] (by decide) 1 hb
  have e4 := split_keys_eval [1, 0] (1/2) [⟨2, []⟩, ⟨1, []⟩] [1, 2] (by decide) 1 hb
  refine ⟨by decide, ?_, ?_⟩
  · rw [e1, e2]; decide
  · rw [e3, e4]; decide

/-- C2 amended: for a fixed seed permutation and train fraction the
split is a function of the sequence of entity ids in row order alone
(the feature values do not matter); identical id sequences give the
identical partition, but as the counterexample shows, reordering the
rows can change it. -/
theorem split_keys_depend_only_on_id_sequence (σ : List ℕ) (p : ℚ)
    (df1 df2 : List TRow) (h : df1.map TRow.id = df2.map TRow.id) :
    split_keys σ p df1 = split_keys σ p df2 := by
  unfold split_keys
  rw [h]

/-- Witness for the amended C2: two tables with the same id sequence
but different feature values split identically. -/
theorem split_keys_depend_only_on_id_sequence_witness :
    ([⟨1, [3]⟩, ⟨2, [4]⟩] : List TRow).map TRow.id =
      ([⟨1, [7]⟩, ⟨2, [9]⟩] : List TRow).map TRow.id
    ∧ split_keys [1, 0] (1/2) [⟨1, [3]⟩, ⟨2, [4]⟩] =
        split_keys [1, 0] (1/2) [⟨1, [7]⟩, ⟨2, [9]⟩] :=
  ⟨by decide,
   split_keys_depend_only_on_id_sequence [1, 0] (1/2) _ _ (by decide)⟩

/-! ## Theorems: C7 (zero-variance standardization) -/

private lemma sum_sq_eq_zero :
    ∀ {l : List ℚ}, (l.map fun x => x ^ 2).sum = 0 → ∀ x ∈ l, x = 0 := by
  intro l
  induction l with
  | nil => intro _ x hx; simp at hx
  | cons a as ih =>
    intro h x hx
    simp only [List.map_cons, List.sum_cons] at h
    have hs : 0 ≤ (as.map fun x => x ^ 2).sum := by
      apply List.sum_nonneg
      intro y hy
      rw [List.mem_map] at hy
      obtain ⟨z, -, rfl⟩ := hy
      exact sq_nonneg z
    have ha : a ^ 2 = 0 := le_antisymm (by nlinarith [sq_nonneg a]) (sq_nonneg a)
    have h0 : (as.map fun x => x ^ 2).sum = 0 := by nlinarith [sq_nonneg a]
    rcases List.mem_cons.mp hx with rfl | hxs
    · exact sq_eq_zero_iff.mp ha
    · exact ih h0 x hxs

private lemma colVar_nonneg {xs : List ℚ} (h2 : 2 ≤ xs.length) : 0 ≤ colVar xs := by
  unfold colVar
  apply div_nonneg
  · apply List.sum_nonneg
    intro y hy
    rw [List.mem_map] at hy
    obtain ⟨z, -, rfl⟩ := hy
    exact sq_nonneg _
  · have : (2 : ℚ) ≤ (xs.length : ℚ) := by exact_mod_cast h2
    linarith

private lemma rat_sqrt_eq_zero_of_nonneg {v : ℚ} (hv : 0 ≤ v)
    (h : Rat.sqrt v = 0) : v = 0 := by
  by_contra hne
  have hpos : 0 < v := lt_of_le_of_ne hv (Ne.symm hne)
  have hnum : 0 < v.num := Rat.num_pos.mpr hpos
  have h1 : 0 < Int.sqrt v.num := by
    have hpos2 : 0 < v.num.toNat := by omega
    have := Nat.sqrt_pos.mpr hpos2
    unfold Int.sqrt
    exact_mod_cast this
  have hden : Nat.sqrt v.den ≠ 0 := by
    rw [Ne, Nat.sqrt_eq_zero]
    exact v.den_nz
  have hz : Rat.sqrt v ≠ 0 := by
    unfold Rat.sqrt
    rw [Ne, Rat.mkRat_eq_zero hden]
    omega
  exact hz h

private lemma mem_eq_mean_of_var_zero {xs : List ℚ} (h2 : 2 ≤ xs.length)
    (hv : colVar xs = 0) : ∀ x ∈ xs, x = colMean xs := by
  unfold colVar at hv
  have hden : ((xs.length : ℚ) - 1) ≠ 0 := by
    have : (2 : ℚ) ≤ (xs.length : ℚ) := by exact_mod_cast h2
    linarith
  rw [div_eq_zero_iff] at hv
  rcases hv with hnum | hd
  · have hnum2 : ((xs.map fun x => x - colMean xs).map fun y => y ^ 2).sum = 0 := by
      rw [List.map_map]
      exact hnum
    have hall := sum_sq_eq_zero hnum2
    intro x hx
    have hx0 : x - colMean xs = 0 := hall _ (List.mem_map_of_mem _ hx)
    linarith
  · exact absurd hd hden

/-- Counterexample to C7: the training column `[5, 5]` has standard
deviation 0, so `reduce_features` substitutes the divisor 1, and the
standardized training column is all zeros — but the standardized test
column `[7]` becomes `[2]` (the raw value minus the training mean 5),
which is not zero.  The claim that the test side is also all-zero is
false. -/
theorem zero_variance_test_column_counterexample :
    colStd [(5 : ℚ), 5] = 0
    ∧ adjStd [(5 : ℚ), 5] = 1
    ∧ standardize_train [[(5 : ℚ), 5]] = [[0, 0]]
    ∧ standardize_test [[(5 : ℚ), 5]] [[7]] = [[2]]
    ∧ (2 : ℚ) ≠ 0 := by
  have hmean : colMean [(5 : ℚ), 5] = 5 := by
    norm_num [colMean, List.sum_cons, List.sum_nil]
  have hvar : colVar [(5 : ℚ), 5] = 0 := by
    rw [colVar, hmean]
    norm_num [List.map_cons, List.map_nil, List.sum_cons, List.sum_nil]
  have hstd : colStd [(5 : ℚ), 5] = 0 := by rw [colStd, hvar]; rfl
  have hadj : adjStd [(5 : ℚ), 5] = 1 := by rw [adjStd, if_pos hstd]
  refine ⟨hstd, hadj, ?_, ?_, by norm_num⟩
  · simp only [standardize_train, standardizeCol, hmean, hadj, List.map_cons,
      List.map_nil]
    norm_num
  · simp only [standardize_test, standardizeCol, hmean, hadj, List.zip_cons_cons,
      List.zip_nil_right, List.map_cons, List.map_nil]
    norm_num

/-- C7 amended: for every training column with at least two rows and
standard deviation zero, the substituted divisor is 1, the
standardized training column is exactly all zeros, and any test column
standardized with these statistics equals the raw values shifted by
the training mean — well defined (the division is by 1, never by 0),
but not necessarily zero. -/
theorem zero_variance_standardization (train test : List ℚ)
    (h2 : 2 ≤ train.length) (hstd : colStd train = 0) :
    adjStd train = 1
    ∧ standardizeCol train train = List.replicate train.length 0
    ∧ standardizeCol train test = test.map fun x => x - colMean train := by
  have hvar : colVar train = 0 :=
    rat_sqrt_eq_zero_of_nonneg (colVar_nonneg h2) hstd
  have hadj : adjStd train = 1 := by rw [adjStd, if_pos hstd]
  have hmem := mem_eq_mean_of_var_zero h2 hvar
  refine ⟨hadj, ?_, ?_⟩
  · rw [standardizeCol, hadj, List.eq_replicate_iff]
    refine ⟨List.length_map _ _, ?_⟩
    intro b hb
    rw [List.mem_map] at hb
    obtain ⟨x, hx, rfl⟩ := hb
    rw [div_one, hmem x hx, sub_self]
  · rw [standardizeCol, hadj]
    simp [div_one]

/-- Witness for the amended C7 at training column `[0, 0]` and test
column `[7]`. -/
theorem zero_variance_standardization_witness :
    2 ≤ ([(0 : ℚ), 0] : List ℚ).length ∧ colStd [(0 : ℚ), 0] = 0 ∧
    (adjStd [(0 : ℚ), 0] = 1
     ∧ standardizeCol [(0 : ℚ), 0] [(0 : ℚ), 0] =
         List.replicate ([(0 : ℚ), 0] : List ℚ).length 0
     ∧ standardizeCol [(0 : ℚ), 0] [7] =
         [7].map fun x => x - colMean [(0 : ℚ), 0]) :=
  ⟨by decide, by simp [colStd, colVar, colMean],
   zero_variance_standardization [(0 : ℚ), 0] [7] (by decide)
     (by simp [colStd, colVar, colMean])⟩

/-! ## Theorems: C5 and C6 (class balancing) -/

private lemma balance_true_eq_filter (F n : ℕ) (sh : Shuffles)
    (rows : List TRow) (imbalance : ℚ) :
    balance_data_set F n sh rows true imbalance =
      rows.filter fun r =>
        (sh.shufTotal
          ((balance_pools F n sh true rows).1.take
              (balance_pools F n sh true rows).1.length ++
            (balance_pools F n sh true rows).2.take
              (pyTruncMul (balance_pools F n sh true rows).1.length
                imbalance))).contains r.id := rfl

private lemma balance_false_eq_foldl (F n : ℕ) (sh : Shuffles)
    (rows : List TRow) (imbalance : ℚ) :
    balance_data_set F n sh rows false imbalance =
      (List.range ((balance_pools F n sh false rows).2.length /
          (balance_pools F n sh false rows).1.length - 1)).foldl
        (fun acc _ => acc ++ rows.filter fun r =>
          (balance_pools F n sh false rows).1.contains r.id) rows := rfl

/-- C5: in undersampling mode `balance_data_set` returns exactly the
input rows whose entity lies in the kept set of the claim — the
minority pool plus the first `⌊imbalance × minority_size⌋` entities of
the shuffled majority pool — provided the final shuffle is a
permutation (which `np.random.shuffle` always is). -/
theorem balance_undersample_keeps_spec (F n : ℕ) (sh : Shuffles)
    (imbalance : ℚ) (rows : List TRow)
    (hT : ∀ l, (sh.shufTotal l).Perm l) :
    balance_data_set F n sh rows true imbalance =
      undersample_spec F n sh imbalance rows := by
  rw [balance_true_eq_filter]
  unfold undersample_spec
  apply List.filter_congr
  intro r _
  have hp := (hT ((balance_pools F n sh true rows).1.take
      (balance_pools F n sh true rows).1.length ++
    (balance_pools F n sh true rows).2.take
      (pyTruncMul (balance_pools F n sh true rows).1.length
        imbalance))).mem_iff (a := r.id)
  simp only [List.contains, List.elem_eq_mem, decide_eq_decide]
  rw [hp]
  simp [undersample_kept, Finset.mem_union, List.mem_toFinset,
    List.mem_append, List.take_length]

/-- Witness for C5: identity shuffles, one positive entity (id 1,
target column goes 0 then 1) and one negative entity (id 2). -/
theorem balance_undersample_keeps_spec_witness :
    (∀ l, (idShuffles.shufTotal l).Perm l) ∧
    balance_data_set 1 1 idShuffles
        [⟨1, [0]⟩, ⟨1, [1]⟩, ⟨2, [0]⟩, ⟨2, [0]⟩] true (3/2) =
      undersample_spec 1 1 idShuffles (3/2)
        [⟨1, [0]⟩, ⟨1, [1]⟩, ⟨2, [0]⟩, ⟨2, [0]⟩] :=
  ⟨fun l => List.Perm.refl l,
   balance_undersample_keeps_spec 1 1 idShuffles (3/2)
     [⟨1, [0]⟩, ⟨1, [1]⟩, ⟨2, [0]⟩, ⟨2, [0]⟩] (fun l => List.Perm.refl l)⟩

private lemma groupRows_filter_by_id (p : ℕ → Bool) (rows : List TRow) (i : ℕ) :
    groupRows (rows.filter fun r => p r.id) i =
      if p i = true then groupRows rows i else [] := by
  unfold groupRows
  rw [List.filter_filter]
  cases hp : p i with
  | false =>
    simp only [Bool.false_eq_true, if_false]
    rw [List.filter_eq_nil_iff]
    intro r _
    by_cases hid : r.id = i
    · simp [hid, hp]
    · simp [hid]
  | true =>
    simp only [if_true]
    apply List.filter_congr
    intro r _
    by_cases hid : r.id = i
    · simp [hid, hp]
    · simp [hid]

private lemma foldl_append_replicate (rows md : List TRow) (k : ℕ) :
    (List.range k).foldl (fun acc _ => acc ++ md) rows =
      rows ++ (List.replicate k md).flatten := by
  induction k with
  | zero => simp
  | succ k ih =>
    rw [List.range_succ, List.foldl_append, ih, List.replicate_succ',
      List.flatten_append]
    simp [List.append_assoc]

private lemma groupRows_append (l1 l2 : List TRow) (i : ℕ) :
    groupRows (l1 ++ l2) i = groupRows l1 i ++ groupRows l2 i := by
  simp [groupRows]

private lemma groupRows_flatten_replicate (k : ℕ) (md : List TRow) (i : ℕ) :
    groupRows (List.replicate k md).flatten i =
      (List.replicate k (groupRows md i)).flatten := by
  induction k with
  | zero => simp [groupRows]
  | succ k ih =>
    rw [List.replicate_succ, List.flatten_cons, List.replicate_succ,
      List.flatten_cons, groupRows_append, ih]

private lemma flatten_replicate_nil (k : ℕ) :
    (List.replicate k ([] : List TRow)).flatten = [] := by
  induction k with
  | zero => rfl
  | succ k ih => rw [List.replicate_succ, List.flatten_cons, ih]; rfl

private lemma minority_le_majority (F n : ℕ) (sh : Shuffles) (u : Bool)
    (rows : List TRow) :
    (balance_pools F n sh u rows).1.length ≤
      (balance_pools F n sh u rows).2.length := by
  dsimp only [balance_pools]
  split
  · next h => exact Nat.le_of_lt h
  · next h => exact Nat.le_of_not_lt h

/-- C6: balancing operates at whole-entity granularity.  In
undersampling mode every entity keeps either all of its original rows
or none of them.  In oversampling mode (with a nonempty minority pool,
otherwise the source raises `ZeroDivisionError`) the output is the
input followed by `majority_size // minority_size − 1` whole copies of
the minority rows, so a minority entity's rows appear as
`majority_size // minority_size` complete copies of its original group
and every other entity keeps exactly its original group. -/
theorem balance_entity_coherence (F n : ℕ) (sh : Shuffles) (imbalance : ℚ)
    (rows : List TRow) :
    (∀ i, groupRows (balance_data_set F n sh rows true imbalance) i =
          groupRows rows i
        ∨ groupRows (balance_data_set F n sh rows true imbalance) i = [])
    ∧ (0 < (balance_pools F n sh false rows).1.length →
        balance_data_set F n sh rows false imbalance =
          rows ++ (List.replicate (over_factor F n sh rows - 1)
            (rows.filter fun r =>
              (balance_pools F n sh false rows).1.contains r.id)).flatten
        ∧ (∀ i, (balance_pools F n sh false rows).1.contains i = true →
            groupRows (balance_data_set F n sh rows false imbalance) i =
              (List.replicate (over_factor F n sh rows)
                (groupRows rows i)).flatten)
        ∧ (∀ i, (balance_pools F n sh false rows).1.contains i = false →
            groupRows (balance_data_set F n sh rows false imbalance) i =
              groupRows rows i)) := by
  constructor
  · intro i
    rw [balance_true_eq_filter]
    rw [groupRows_filter_by_id]
    by_cases hc : (sh.shufTotal
        ((balance_pools F n sh true rows).1.take
            (balance_pools F n sh true rows).1.length ++
          (balance_pools F n sh true rows).2.take
            (pyTruncMul (balance_pools F n sh true rows).1.length
              imbalance))).contains i = true
    · left; rw [if_pos hc]
    · right; rw [if_neg hc]
  · intro hm
    have hle := minority_le_majority F n sh false rows
    have hd1 : 1 ≤ over_factor F n sh rows := by
      unfold over_factor
      exact (Nat.one_le_div_iff hm).mpr hle
    have hstruct : balance_data_set F n sh rows false imbalance =
        rows ++ (List.replicate (over_factor F n sh rows - 1)
          (rows.filter fun r =>
            (balance_pools F n sh false rows).1.contains r.id)).flatten := by
      rw [balance_false_eq_foldl, foldl_append_replicate]
      rfl
    refine ⟨hstruct, ?_, ?_⟩
    · intro i hci
      rw [hstruct, groupRows_append, groupRows_flatten_replicate]
      rw [groupRows_filter_by_id, if_pos hci]
      conv_rhs => rw [← Nat.succ_pred_eq_of_pos hd1]
      rw [List.replicate_succ, List.flatten_cons]
      rfl
    · intro i hci
      rw [hstruct, groupRows_append, groupRows_flatten_replicate]
      rw [groupRows_filter_by_id, if_neg (by rw [hci]; exact Bool.false_ne_true),
        flatten_replicate_nil, List.append_nil]

/-- Witness for C6: identity shuffles, one positive entity (id 1) and
one negative entity (id 2), where the minority pool is `[2]`. -/
theorem balance_entity_coherence_witness :
    0 < (balance_pools 1 1 idShuffles false
        [⟨1, [0]⟩, ⟨1, [1]⟩, ⟨2, [0]⟩, ⟨2, [0]⟩]).1.length ∧
    ((∀ i, groupRows (balance_data_set 1 1 idShuffles
          [⟨1, [0]⟩, ⟨1, [1]⟩, ⟨2, [0]⟩, ⟨2, [0]⟩] true (3/2)) i =
          groupRows [⟨1, [0]⟩, ⟨1, [1]⟩, ⟨2, [0]⟩, ⟨2, [0]⟩] i
        ∨ groupRows (balance_data_set 1 1 idShuffles
          [⟨1, [0]⟩, ⟨1, [1]⟩, ⟨2, [0]⟩, ⟨2, [0]⟩] true (3/2)) i = [])
    ∧ (0 < (balance_pools 1 1 idShuffles false
          [⟨1, [0]⟩, ⟨1, [1]⟩, ⟨2, [0]⟩, ⟨2, [0]⟩]).1.length →
        balance_data_set 1 1 idShuffles
            [⟨1, [0]⟩, ⟨1, [1]⟩, ⟨2, [0]⟩, ⟨2, [0]⟩] false (3/2) =
          [⟨1, [0]⟩, ⟨1, [1]⟩, ⟨2, [0]⟩, ⟨2, [0]⟩] ++
            (List.replicate (over_factor 1 1 idShuffles
                [⟨1, [0]⟩, ⟨1, [1]⟩, ⟨2, [0]⟩, ⟨2, [0]⟩] - 1)
              (([⟨1, [0]⟩, ⟨1, [1]⟩, ⟨2, [0]⟩, ⟨2, [0]⟩] : List TRow).filter
                fun r => (balance_pools 1 1 idShuffles false
                  [⟨1, [0]⟩, ⟨1, [1]⟩, ⟨2, [0]⟩, ⟨2, [0]⟩]).1.contains r.id)).flatten
        ∧ (∀ i, (balance_pools 1 1 idShuffles false
              [⟨1, [0]⟩, ⟨1, [1]⟩, ⟨2, [0]⟩, ⟨2, [0]⟩]).1.contains i = true →
            groupRows (balance_data_set 1 1 idShuffles
                [⟨1, [0]⟩, ⟨1, [1]⟩, ⟨2, [0]⟩, ⟨2, [0]⟩] false (3/2)) i =
              (List.replicate (over_factor 1 1 idShuffles
                  [⟨1, [0]⟩, ⟨1, [1]⟩, ⟨2, [0]⟩, ⟨2, [0]⟩])
                (groupRows [⟨1, [0]⟩, ⟨1, [1]⟩, ⟨2, [0]⟩, ⟨2, [0]⟩] i)).flatten)
        ∧ (∀ i, (balance_pools 1 1 idShuffles false
              [⟨1, [0]⟩, ⟨1, [1]⟩, ⟨2, [0]⟩, ⟨2, [0]⟩]).1.contains i = false →
            groupRows (balance_data_set 1 1 idShuffles
                [⟨1, [0]⟩, ⟨1, [1]⟩, ⟨2, [0]⟩, ⟨2, [0]⟩] false (3/2)) i =
              groupRows [⟨1, [0]⟩, ⟨1, [1]⟩, ⟨2, [0]⟩, ⟨2, [0]⟩] i))) :=
  ⟨by
    have h1 : n_pos_diff 1 1 [⟨1, [0]⟩, ⟨1, [1]⟩, ⟨2, [0]⟩, ⟨2, [0]⟩] 1 = [1] := by
      norm_num [n_pos_diff, groupRows, colSums, List.filter]
    have h2 : n_pos_diff 1 1 [⟨1, [0]⟩, ⟨1, [1]⟩, ⟨2, [0]⟩, ⟨2, [0]⟩] 2 = [0] := by
      norm_num [n_pos_diff, groupRows, colSums, List.filter]
    have hsu : sortedUniqueIds [⟨1, [0]⟩, ⟨1, [1]⟩, ⟨2, [0]⟩, ⟨2, [0]⟩] = [1, 2] := by
      norm_num [sortedUniqueIds, pdUnique, List.insertionSort, List.orderedInsert]
    have hr0 : ref_target 1 1 false [⟨1, [0]⟩, ⟨1, [1]⟩, ⟨2, [0]⟩, ⟨2, [0]⟩] = 0 := by
      show argminIdx _ 1 = 0
      rw [argminIdx, show List.range 1 = [0] from rfl]
      simp
    have hpos : pos_ids 1 1 0 [⟨1, [0]⟩, ⟨1, [1]⟩, ⟨2, [0]⟩, ⟨2, [0]⟩] = [1] := by
      rw [pos_ids, hsu]
      simp [List.filter_cons, List.filter_nil, h1, h2]
    have hnp : neg_pos_ids 1 1 0 [⟨1, [0]⟩, ⟨1, [1]⟩, ⟨2, [0]⟩, ⟨2, [0]⟩] = [] := by
      rw [neg_pos_ids, hsu]
      simp [List.filter_cons, List.filter_nil, h1, h2]
    have hno : neg_only_ids 1 1 0 [⟨1, [0]⟩, ⟨1, [1]⟩, ⟨2, [0]⟩, ⟨2, [0]⟩] = [2] := by
      rw [neg_only_ids, hsu]
      simp [List.filter_cons, List.filter_nil, h1, h2]
    have hbp : balance_pools 1 1 idShuffles false
        [⟨1, [0]⟩, ⟨1, [1]⟩, ⟨2, [0]⟩, ⟨2, [0]⟩] = ([2], [1]) := by
      dsimp only [balance_pools, idShuffles]
      rw [hr0, hpos, hnp, hno]
      simp
    simp [hbp],
   balance_entity_coherence 1 1 idShuffles (3/2)
     [⟨1, [0]⟩, ⟨1, [1]⟩, ⟨2, [0]⟩, ⟨2, [0]⟩]⟩

end MimicModel
